import Mathlib

/-!
Verification of the MentatLab rust agent template
(src/cli/mentatctl/templates/rust/src/main.rs).

The program reads a JSON document from standard input, applies the stub
transformation `result = "Processed: " + text`, and writes a JSON response
(or error document) to standard output, exiting 0 on success and 1 on any
failure.

Shallow embedding conventions:
  - JSON documents are the inductive `Json`; the serde_json string decoder
    is modelled by the fuel-based `parseValue` family, and the derived
    struct decoder for `InputData` by `decodeInputData`.
  - Rust `f64` times are modelled as rationals; the wall-clock duration
    returned by `Instant::elapsed` is nondeterministic, so it enters the
    model as an explicit parameter of `process_request` and `mainRun`.
  - `usize` counts are `Nat` (the counts here are tiny, far from overflow).
  - standard output is modelled as the document written (`StdoutDoc`),
    standard error as the list of diagnostic lines, and the exit code as a
    `Nat`, collected in `RunResult`.
-/

/-- Rust `char::is_whitespace`: the Unicode White_Space code points.
Used by `str::trim` and `str::split_whitespace`. -/
def rustIsWhitespace (c : Char) : Bool :=
  let n := c.toNat
  (0x09 ≤ n && n ≤ 0x0D) || n == 0x20 || n == 0x85 || n == 0xA0 ||
  n == 0x1680 || (0x2000 ≤ n && n ≤ 0x200A) || n == 0x2028 || n == 0x2029 ||
  n == 0x202F || n == 0x205F || n == 0x3000

/-- Rust `str::trim`: remove leading and trailing Unicode whitespace. -/
def rustTrim (s : String) : String :=
  String.mk (((s.data.dropWhile rustIsWhitespace).reverse.dropWhile
    rustIsWhitespace).reverse)

/-- Count of maximal whitespace-free runs in a character list. The `inTok`
flag records whether the previous character belonged to a token, mirroring a
left-to-right scan of Rust `str::split_whitespace`. -/
def countTokensAux : Bool → List Char → Nat
  | _, [] => 0
  | inTok, c :: cs =>
    if rustIsWhitespace c then countTokensAux false cs
    else (if inTok then 0 else 1) + countTokensAux true cs

/-- Rust `s.split_whitespace().count()`: the number of whitespace-delimited
tokens of `s`. -/
def splitWhitespaceCount (s : String) : Nat :=
  countTokensAux false s.data

/-- The build-time agent identifier: the template ships the literal
placeholder text, two braces, `AGENT_ID`, two braces. -/
def AGENT_ID : String := "\x7b\x7bAGENT_ID\x7d\x7d"

/-- Input data structure (struct `InputData`, derive(Deserialize)). -/
structure InputData where
  text : Option String
deriving Repr, DecidableEq

/-- Metadata structure for MentatLab metrics (struct `MentatMeta`). -/
structure MentatMeta where
  tokens_input : Option Nat
  tokens_output : Option Nat
  seconds : Option ℚ
  model : String
deriving Repr, DecidableEq

/-- Output data structure (struct `OutputData`). -/
structure OutputData where
  result : String
  mentat_meta : MentatMeta
deriving Repr, DecidableEq

/-- Error response structure (struct `ErrorResponse`). -/
structure ErrorResponse where
  error : String
  mentat_meta : MentatMeta
deriving Repr, DecidableEq

/-- Rust `f64::round`: round half away from zero. -/
def rustRound (x : ℚ) : Int :=
  if 0 ≤ x then (x + 1/2).floor else -((-x + 1/2).floor)

/-- The template computes `(processing_time * 1000.0).round() / 1000.0`. -/
def roundTo3 (t : ℚ) : ℚ :=
  (rustRound (t * 1000) : ℚ) / 1000

/-- Process the agent request (`process_request`). `processing_time` stands
for `start_time.elapsed().as_secs_f64()`, the measured wall-clock duration,
which the model takes as a parameter. -/
def process_request (input_data : InputData) (processing_time : ℚ) :
    OutputData :=
  let input_text := input_data.text.getD ""
  let result := "Processed: " ++ input_text
  { result := result
    mentat_meta :=
      { tokens_input :=
          if input_text = "" then some 0
          else some (splitWhitespaceCount input_text)
        tokens_output :=
          if result = "" then some 0
          else some (splitWhitespaceCount result)
        seconds := some (roundTo3 processing_time)
        model := AGENT_ID } }

/-- Create error response (`create_error_response`). -/
def create_error_response (error_msg : String) : ErrorResponse :=
  { error := error_msg
    mentat_meta :=
      { tokens_input := none
        tokens_output := none
        seconds := none
        model := AGENT_ID } }

/-- JSON documents, as parsed by serde_json. Objects keep their fields in
textual order; numbers are modelled as exact rationals in place of `f64`. -/
inductive Json where
  | null
  | bool (b : Bool)
  | num (q : ℚ)
  | str (s : String)
  | arr (elems : List Json)
  | obj (fields : List (String × Json))
deriving Repr

/-- JSON insignificant whitespace, as skipped by the serde_json reader:
space, tab, line feed, carriage return. -/
def jsonWs (c : Char) : Bool :=
  c == ' ' || c == '\t' || c == '\n' || c == '\r'

/-- Drop leading JSON whitespace. -/
def skipWs : List Char → List Char
  | [] => []
  | c :: cs => if jsonWs c then skipWs cs else c :: cs

/-- Value of a hexadecimal digit, if any. -/
def hexVal (c : Char) : Option Nat :=
  if '0' ≤ c ∧ c ≤ '9' then some (c.toNat - '0'.toNat)
  else if 'a' ≤ c ∧ c ≤ 'f' then some (c.toNat - 'a'.toNat + 10)
  else if 'A' ≤ c ∧ c ≤ 'F' then some (c.toNat - 'A'.toNat + 10)
  else none

/-- Read four hexadecimal digits of a `u` escape. -/
def parseHex4 : List Char → Option (Nat × List Char)
  | a :: b :: c :: d :: rest => do
    let x ← hexVal a
    let y ← hexVal b
    let z ← hexVal c
    let w ← hexVal d
    some (((x * 16 + y) * 16 + z) * 16 + w, rest)
  | _ => none

/-- Read the body of a JSON string after its opening quote, unescaping as
serde_json does; answers the decoded characters and the remaining input.
The fuel bounds the recursion and one unit per consumed character is
enough. -/
def parseStringBody : Nat → List Char → Except String (List Char × List Char)
  | 0, _ => .error "string depth limit exceeded"
  | _ + 1, [] => .error "EOF while parsing a string"
  | fuel + 1, c :: rest =>
    if c = '"' then .ok ([], rest)
    else if c = '\\' then
      match rest with
      | [] => .error "EOF while parsing a string"
      | e :: rest2 =>
        let simple : Option Char :=
          if e = '"' then some '"'
          else if e = '\\' then some '\\'
          else if e = '/' then some '/'
          else if e = 'b' then some (Char.ofNat 8)
          else if e = 'f' then some (Char.ofNat 12)
          else if e = 'n' then some '\n'
          else if e = 'r' then some '\r'
          else if e = 't' then some '\t'
          else none
        match simple with
        | some ch =>
          match parseStringBody fuel rest2 with
          | .ok (cs, r) => .ok (ch :: cs, r)
          | .error msg => .error msg
        | none =>
          if e = 'u' then
            match parseHex4 rest2 with
            | none => .error "invalid unicode escape"
            | some (n, rest3) =>
              if 0xD800 ≤ n ∧ n ≤ 0xDBFF then
                match rest3 with
                | '\\' :: 'u' :: rest4 =>
                  match parseHex4 rest4 with
                  | none => .error "invalid unicode escape"
                  | some (m, rest5) =>
                    if 0xDC00 ≤ m ∧ m ≤ 0xDFFF then
                      match parseStringBody fuel rest5 with
                      | .ok (cs, r) =>
                        .ok (Char.ofNat
                          (0x10000 + (n - 0xD800) * 0x400 + (m - 0xDC00))
                          :: cs, r)
                      | .error msg => .error msg
                    else .error "lone leading surrogate in hex escape"
                | _ => .error "unexpected end of hex escape"
              else if 0xDC00 ≤ n ∧ n ≤ 0xDFFF then
                .error "lone trailing surrogate"
              else
                match parseStringBody fuel rest3 with
                | .ok (cs, r) => .ok (Char.ofNat n :: cs, r)
                | .error msg => .error msg
          else .error "invalid escape"
    else if c.toNat < 0x20 then
      .error "control character while parsing a string"
    else
      match parseStringBody fuel rest with
      | .ok (cs, r) => .ok (c :: cs, r)
      | .error msg => .error msg

/-- Numeric value of a list of decimal digits. -/
def natFromDigits (ds : List Char) : Nat :=
  ds.foldl (fun a c => a * 10 + (c.toNat - '0'.toNat)) 0

/-- Powers of ten, as rationals. -/
def tenPow (n : Nat) : ℚ := (10 : ℚ) ^ n

/-- Read the optional fraction part of a JSON number. -/
def parseFrac : List Char → Except String (List Char × List Char)
  | '.' :: r =>
    let ds := r.takeWhile Char.isDigit
    if ds.isEmpty then .error "invalid number: expected fraction digits"
    else .ok (ds, r.dropWhile Char.isDigit)
  | cs => .ok ([], cs)

/-- Read the optional exponent part of a JSON number: the sign flag and the
digits, when an exponent is present. -/
def parseExp : List Char → Except String (Option (Bool × List Char) × List Char)
  | [] => .ok (none, [])
  | c :: r =>
    if c = 'e' ∨ c = 'E' then
      let signAndRest : Bool × List Char :=
        match r with
        | '+' :: rr => (false, rr)
        | '-' :: rr => (true, rr)
        | _ => (false, r)
      let ds := signAndRest.2.takeWhile Char.isDigit
      if ds.isEmpty then .error "invalid number: expected exponent digits"
      else .ok (some (signAndRest.1, ds), signAndRest.2.dropWhile Char.isDigit)
    else .ok (none, c :: r)

/-- Read a JSON number, yielding its exact rational value; serde rejects a
leading zero followed by further integer digits, a dot with no digits and
an exponent with no digits, and so does this reader. -/
def parseNumber (cs : List Char) : Except String (ℚ × List Char) :=
  let signAndRest : Bool × List Char :=
    match cs with
    | '-' :: r => (true, r)
    | _ => (false, cs)
  let neg := signAndRest.1
  let cs1 := signAndRest.2
  let intDigits := cs1.takeWhile Char.isDigit
  if intDigits.isEmpty then .error "invalid number: expected digits"
  else if 1 < intDigits.length ∧ intDigits.head? = some '0' then
    .error "invalid number: leading zero"
  else
    match parseFrac (cs1.dropWhile Char.isDigit) with
    | .error msg => .error msg
    | .ok (fracDigits, cs2) =>
      match parseExp cs2 with
      | .error msg => .error msg
      | .ok (expPart, cs3) =>
        let mag : ℚ := (natFromDigits intDigits : ℚ) +
          (natFromDigits fracDigits : ℚ) / tenPow fracDigits.length
        let signed := if neg then -mag else mag
        let value :=
          match expPart with
          | none => signed
          | some (eneg, eds) =>
            if eneg then signed / tenPow (natFromDigits eds)
            else signed * tenPow (natFromDigits eds)
        .ok (value, cs3)

/-- Match a literal keyword tail, answering the remaining input. -/
def stripLit : List Char → List Char → Option (List Char)
  | [], cs => some cs
  | l :: ls, c :: cs => if c = l then stripLit ls cs else none
  | _ :: _, [] => none

mutual

/-- Read one JSON value, as serde_json does. The fuel dominates the
nesting recursion; `from_str_json` supplies more than enough of it. -/
def parseValue : Nat → List Char → Except String (Json × List Char)
  | 0, _ => .error "recursion limit exceeded"
  | fuel + 1, cs =>
    match skipWs cs with
    | [] => .error "EOF while parsing a value"
    | c :: rest =>
      if c = '{' then parseObject fuel rest
      else if c = '[' then parseArray fuel rest
      else if c = '"' then
        match parseStringBody (rest.length + 1) rest with
        | .ok (body, r) => .ok (.str (String.mk body), r)
        | .error msg => .error msg
      else if c = 't' then
        match stripLit ['r', 'u', 'e'] rest with
        | some r => .ok (.bool true, r)
        | none => .error "expected ident"
      else if c = 'f' then
        match stripLit ['a', 'l', 's', 'e'] rest with
        | some r => .ok (.bool false, r)
        | none => .error "expected ident"
      else if c = 'n' then
        match stripLit ['u', 'l', 'l'] rest with
        | some r => .ok (.null, r)
        | none => .error "expected ident"
      else if c = '-' ∨ c.isDigit then
        match parseNumber (c :: rest) with
        | .ok (q, r) => .ok (.num q, r)
        | .error msg => .error msg
      else .error "expected value"

/-- Read the inside of an object after its opening brace. -/
def parseObject : Nat → List Char → Except String (Json × List Char)
  | 0, _ => .error "recursion limit exceeded"
  | fuel + 1, cs =>
    match skipWs cs with
    | '}' :: rest => .ok (.obj [], rest)
    | other => parseMembers fuel other []

/-- Read the members of a non-empty object, accumulating the fields read so
far in textual order. -/
def parseMembers : Nat → List Char → List (String × Json) →
    Except String (Json × List Char)
  | 0, _, _ => .error "recursion limit exceeded"
  | fuel + 1, cs, acc =>
    match skipWs cs with
    | '"' :: rest =>
      match parseStringBody (rest.length + 1) rest with
      | .error msg => .error msg
      | .ok (keyChars, r1) =>
        match skipWs r1 with
        | ':' :: r2 =>
          match parseValue fuel r2 with
          | .error msg => .error msg
          | .ok (v, r3) =>
            let acc2 := acc ++ [(String.mk keyChars, v)]
            match skipWs r3 with
            | ',' :: r4 => parseMembers fuel r4 acc2
            | '}' :: r4 => .ok (.obj acc2, r4)
            | _ => .error "expected comma or closing brace"
        | _ => .error "expected colon"
    | _ => .error "key must be a string"

/-- Read the inside of an array after its opening bracket. -/
def parseArray : Nat → List Char → Except String (Json × List Char)
  | 0, _ => .error "recursion limit exceeded"
  | fuel + 1, cs =>
    match skipWs cs with
    | ']' :: rest => .ok (.arr [], rest)
    | other => parseElems fuel other []

/-- Read the elements of a non-empty array. -/
def parseElems : Nat → List Char → List Json →
    Except String (Json × List Char)
  | 0, _, _ => .error "recursion limit exceeded"
  | fuel + 1, cs, acc =>
    match parseValue fuel cs with
    | .error msg => .error msg
    | .ok (v, r) =>
      match skipWs r with
      | ',' :: r2 => parseElems fuel r2 (acc ++ [v])
      | ']' :: r2 => .ok (.arr (acc ++ [v]), r2)
      | _ => .error "expected comma or closing bracket"

end

/-- serde_json `from_str` at the `Json` level: read one value, then require
only whitespace to remain. -/
def from_str_json (s : String) : Except String Json :=
  let cs := s.data
  match parseValue (2 * cs.length + 2) cs with
  | .error msg => .error msg
  | .ok (j, rest) =>
    match skipWs rest with
    | [] => .ok j
    | _ => .error "trailing characters"

/-- Decode the value of the `text` field: serde accepts a string or `null`
for an `Option String` field. -/
def decodeOptString : Json → Except String (Option String)
  | .null => .ok none
  | .str s => .ok (some s)
  | _ => .error "invalid type for field text, expected a string or null"

/-- Walk the fields of the object for the derived `InputData` decoder:
the `text` field is decoded at most once, a repeat is a duplicate-field
error, every other field is ignored, and a missing field defaults to
`none`. -/
def readTextField : List (String × Json) → Option (Option String) →
    Except String (Option String)
  | [], found => .ok (found.getD none)
  | (k, v) :: rest, found =>
    if k = "text" then
      match found with
      | some _ => .error "duplicate field text"
      | none =>
        match decodeOptString v with
        | .ok t => readTextField rest (some t)
        | .error msg => .error msg
    else readTextField rest found

/-- The derived serde decoder for struct `InputData`: an object whose
optional `text` field is a string or null; unknown fields are ignored. -/
def decodeInputData : Json → Except String InputData
  | .obj fields =>
    match readTextField fields none with
    | .ok t => .ok { text := t }
    | .error msg => .error msg
  | _ => .error "invalid type, expected struct InputData"

/-- `serde_json::from_str::<InputData>`: parse, then decode the struct. -/
def from_str_InputData (s : String) : Except String InputData :=
  match from_str_json s with
  | .ok j => decodeInputData j
  | .error msg => .error msg

/-- Hexadecimal digit character for the low nibbles of control escapes. -/
def hexDigit (n : Nat) : Char :=
  if n < 10 then Char.ofNat ('0'.toNat + n) else Char.ofNat ('a'.toNat + n - 10)

/-- serde_json escaping of one character inside a JSON string literal. -/
def escapeJsonChar (c : Char) : List Char :=
  if c = '"' then ['\\', '"']
  else if c = '\\' then ['\\', '\\']
  else if c = '\n' then ['\\', 'n']
  else if c = '\r' then ['\\', 'r']
  else if c = '\t' then ['\\', 't']
  else if c.toNat = 8 then ['\\', 'b']
  else if c.toNat = 12 then ['\\', 'f']
  else if c.toNat < 0x20 then
    ['\\', 'u', '0', '0', hexDigit (c.toNat / 16), hexDigit (c.toNat % 16)]
  else [c]

/-- Render a string as a JSON string literal, serde_json style. -/
def renderJsonString (s : String) : String :=
  String.mk ('"' :: s.data.foldr (fun c acc => escapeJsonChar c ++ acc) ['"'])

/-- Rendering of the parsed `InputData` for the diagnostic line
`Processing input: ...` that `main` logs on standard error after a
successful decode. -/
def renderInputData (d : InputData) : String :=
  match d.text with
  | none => "\x7b\"text\":null\x7d"
  | some s => "\x7b\"text\":" ++ renderJsonString s ++ "\x7d"

/-- The document `main` writes to standard output: either a serialized
`OutputData` or a serialized `ErrorResponse`. -/
inductive StdoutDoc where
  | success (d : OutputData)
  | failure (e : ErrorResponse)
deriving Repr, DecidableEq

/-- Observable outcome of one run of `main`: the exit code, the document
written to standard output, and the diagnostic lines written to standard
error, in order. -/
structure RunResult where
  exitCode : Nat
  output : StdoutDoc
  stderrLines : List String
deriving Repr, DecidableEq

/-- The part of `main` after the stdin read and the parse attempt. On a
successful decode, `main` logs the re-encoded input, processes the request,
writes the response and logs a success line; `serde_json::to_string` cannot
fail on these derived serializers, so the serialization-error branch of the
source is unreachable in the model. On a decode failure, `main` writes the
error response built from `Invalid JSON input: ` plus the decoder message
and logs the parse error. -/
def runParsed (pr : Except String InputData) (t : ℚ) : RunResult :=
  match pr with
  | .ok data =>
    { exitCode := 0
      output := .success (process_request data t)
      stderrLines := ["Processing input: " ++ renderInputData data,
                      "Processing completed successfully"] }
  | .error msg =>
    { exitCode := 1
      output := .failure (create_error_response ("Invalid JSON input: " ++ msg))
      stderrLines := ["JSON parse error: " ++ msg] }

/-- One run of `main` on the full stdin contents `input_buffer`, with `t`
the wall-clock duration measured inside `process_request`. When the trimmed
input is empty, `main` writes the no-input error response and exits 1,
with no diagnostic on standard error; otherwise it parses the trimmed
input and continues as `runParsed`. -/
def mainRun (input_buffer : String) (t : ℚ) : RunResult :=
  if rustTrim input_buffer = "" then
    { exitCode := 1
      output := .failure (create_error_response "No input received from stdin")
      stderrLines := [] }
  else
    runParsed (from_str_InputData (rustTrim input_buffer)) t

/-- Derived serde serializer for an `Option usize` field. -/
def encodeOptNat : Option Nat → Json
  | none => .null
  | some n => .num (n : ℚ)

/-- Derived serde serializer for an `Option f64` field. -/
def encodeOptQ : Option ℚ → Json
  | none => .null
  | some q => .num q

/-- Derived serde serializer for `MentatMeta`: the fields in declaration
order. -/
def encodeMeta (m : MentatMeta) : Json :=
  .obj [("tokens_input", encodeOptNat m.tokens_input),
        ("tokens_output", encodeOptNat m.tokens_output),
        ("seconds", encodeOptQ m.seconds),
        ("model", .str m.model)]

/-- Derived serde serializer for `OutputData` (the SuccessDocument). -/
def encodeOutputData (d : OutputData) : Json :=
  .obj [("result", .str d.result), ("mentat_meta", encodeMeta d.mentat_meta)]

/-- First field of the given name in an object, if any. -/
def lookupField : List (String × Json) → String → Option Json
  | [], _ => none
  | (k, v) :: rest, key => if k = key then some v else lookupField rest key

/-- Field access for the decoders, a missing field being an error. -/
def getField (fields : List (String × Json)) (k : String) :
    Except String Json :=
  match lookupField fields k with
  | some v => .ok v
  | none => .error ("missing field " ++ k)

/-- Modelled from the spec: decoding of an optional non-negative integer
of a MetaRecord. The template never decodes its own output documents, so
the round-trip property of the spec is read against the inverse of the
derived serializer. -/
def decodeOptNat : Json → Except String (Option Nat)
  | .null => .ok none
  | .num q =>
    if q.den = 1 ∧ 0 ≤ q.num then .ok (some q.num.toNat)
    else .error "invalid value, expected a nonnegative integer"
  | _ => .error "invalid type, expected integer or null"

/-- Modelled from the spec: decoding of the optional `seconds` number of a
MetaRecord. -/
def decodeOptQ : Json → Except String (Option ℚ)
  | .null => .ok none
  | .num q => .ok (some q)
  | _ => .error "invalid type, expected number or null"

/-- Modelled from the spec: decoding of a JSON string. -/
def decodeStr : Json → Except String String
  | .str s => .ok s
  | _ => .error "invalid type, expected string"

/-- Modelled from the spec: decoding of a MetaRecord, inverse in shape to
`encodeMeta`. -/
def decodeMeta : Json → Except String MentatMeta
  | .obj fields =>
    match getField fields "tokens_input" with
    | .error msg => .error msg
    | .ok j1 =>
      match decodeOptNat j1 with
      | .error msg => .error msg
      | .ok ti =>
        match getField fields "tokens_output" with
        | .error msg => .error msg
        | .ok j2 =>
          match decodeOptNat j2 with
          | .error msg => .error msg
          | .ok tko =>
            match getField fields "seconds" with
            | .error msg => .error msg
            | .ok j3 =>
              match decodeOptQ j3 with
              | .error msg => .error msg
              | .ok se =>
                match getField fields "model" with
                | .error msg => .error msg
                | .ok j4 =>
                  match decodeStr j4 with
                  | .error msg => .error msg
                  | .ok mo =>
                    .ok { tokens_input := ti, tokens_output := tko,
                          seconds := se, model := mo }
  | _ => .error "invalid type, expected object"

/-- Modelled from the spec: decoding of a SuccessDocument, inverse in shape
to `encodeOutputData`; the spec round-trip property is stated against it. -/
def decodeOutputData : Json → Except String OutputData
  | .obj fields =>
    match getField fields "result" with
    | .error msg => .error msg
    | .ok jr =>
      match decodeStr jr with
      | .error msg => .error msg
      | .ok r =>
        match getField fields "mentat_meta" with
        | .error msg => .error msg
        | .ok jm =>
          match decodeMeta jm with
          | .error msg => .error msg
          | .ok m => .ok { result := r, mentat_meta := m }
  | _ => .error "invalid type, expected object"


/-! ## Helper lemmas -/

/-- The stub result string is never empty: it always carries the prefix. -/
theorem processed_ne_empty (S : String) : ("Processed: " ++ S) ≠ "" := by
  intro h
  have hd := congrArg String.data h
  rw [String.data_append] at hd
  rcases List.append_eq_nil.mp hd with ⟨h1, _⟩
  exact absurd h1 (by decide)

/-- Token counting sends the empty string to zero. -/
theorem splitWhitespaceCount_empty : splitWhitespaceCount "" = 0 := rfl

/-- The reader rejects the empty document. -/
theorem from_str_json_empty :
    from_str_json "" = .error "EOF while parsing a value" := rfl

/-- A whitespace-only character list holds no token. -/
theorem countTokensAux_all_ws :
    ∀ (W : List Char), (∀ c ∈ W, rustIsWhitespace c = true) →
      ∀ b, countTokensAux b W = 0
  | [], _, _ => rfl
  | c :: cs, hW, b => by
    have hc : rustIsWhitespace c = true := hW c (List.mem_cons_self c cs)
    have ih := countTokensAux_all_ws cs
      (fun x hx => hW x (List.mem_cons_of_mem c hx)) false
    simp [countTokensAux, hc, ih]

/-- A whitespace-only prefix does not change the token count. -/
theorem countTokensAux_ws_prefix :
    ∀ (W L : List Char), (∀ c ∈ W, rustIsWhitespace c = true) →
      countTokensAux false (W ++ L) = countTokensAux false L
  | [], _, _ => rfl
  | c :: cs, L, hW => by
    have hc : rustIsWhitespace c = true := hW c (List.mem_cons_self c cs)
    have ih := countTokensAux_ws_prefix cs L
      (fun x hx => hW x (List.mem_cons_of_mem c hx))
    simp [countTokensAux, hc, ih]

/-- A whitespace-only suffix does not change the token count, whatever the
scan state. -/
theorem countTokensAux_ws_suffix :
    ∀ (S W : List Char), (∀ c ∈ W, rustIsWhitespace c = true) →
      ∀ b, countTokensAux b (S ++ W) = countTokensAux b S
  | [], W, hW, b => by
    simpa [countTokensAux] using countTokensAux_all_ws W hW b
  | c :: cs, W, hW, b => by
    have ih := countTokensAux_ws_suffix cs W hW
    by_cases hc : rustIsWhitespace c = true
    · simp [countTokensAux, hc, ih false]
    · simp [countTokensAux, hc, ih true]

/-- The derived `InputData` decoder reads exactly the `text` fields:
walking all the fields and walking only those named `text` agree. -/
theorem readTextField_filter :
    ∀ (fs : List (String × Json)) (acc : Option (Option String)),
      readTextField fs acc =
        readTextField (fs.filter (fun p => p.1 == "text")) acc
  | [], _ => rfl
  | (k, v) :: rest, acc => by
    by_cases hk : k = "text"
    · subst hk
      rw [List.filter_cons_of_pos (by simp)]
      cases acc with
      | some w => rfl
      | none =>
        cases hdv : decodeOptString v with
        | ok tv => simp [readTextField, hdv, readTextField_filter rest]
        | error msg => simp [readTextField, hdv]
    · rw [List.filter_cons_of_neg (by simp [hk])]
      simp [readTextField, hk, readTextField_filter rest]

/-- Decoding an object with a single string-valued `text` field succeeds
with that string. -/
theorem decodeInputData_text_str (S : String) :
    decodeInputData (Json.obj [("text", Json.str S)]) = .ok { text := some S } :=
  rfl

/-! ## Claims -/

/-- C2: for every input that is empty or consists only of whitespace after
trimming, the program writes an ErrorDocument with message exactly
`No input received from stdin` to standard output, exits with code 1, and
the transformation is never invoked: the run is the error result, built
without a call to `process_request`. -/
theorem empty_input_behavior (s : String) (t : ℚ) (h : rustTrim s = "") :
    mainRun s t =
      { exitCode := 1
        output := .failure (create_error_response "No input received from stdin")
        stderrLines := [] } := by
  unfold mainRun
  rw [if_pos h]

/-- Witness for C2 at the empty input. -/
theorem empty_input_behavior_witness :
    rustTrim "" = "" ∧
    mainRun "" 0 =
      { exitCode := 1
        output := .failure (create_error_response "No input received from stdin")
        stderrLines := [] } :=
  ⟨rfl, empty_input_behavior "" 0 rfl⟩

/-- C3: for every non-empty input that fails to decode as an InputDocument,
the program exits with code 1 and writes an ErrorDocument whose message is
`Invalid JSON input: ` followed by the decoder failure description. -/
theorem invalid_json_behavior (s msg : String) (t : ℚ)
    (h1 : rustTrim s ≠ "")
    (h2 : from_str_InputData (rustTrim s) = .error msg) :
    mainRun s t =
      { exitCode := 1
        output := .failure
          (create_error_response ("Invalid JSON input: " ++ msg))
        stderrLines := ["JSON parse error: " ++ msg] } := by
  unfold mainRun
  rw [if_neg h1, h2]
  rfl

/-- Witness for C3 at the input `not json`. -/
theorem invalid_json_behavior_witness :
    rustTrim "not json" ≠ "" ∧
    from_str_InputData (rustTrim "not json") = .error "expected ident" ∧
    mainRun "not json" 0 =
      { exitCode := 1
        output := .failure
          (create_error_response ("Invalid JSON input: " ++ "expected ident"))
        stderrLines := ["JSON parse error: " ++ "expected ident"] } :=
  ⟨by decide, rfl,
   invalid_json_behavior "not json" "expected ident" 0 (by decide) rfl⟩

/-- C1: for every non-empty, well-formed JSON input of the form with a
single string-valued `text` field holding `S`, the program exits with code
0 and writes a SuccessDocument whose `result` is `Processed: ` followed by
`S`, whose `tokens_input` is the whitespace-token count of `S` (which is 0
when `S` is empty), and whose `tokens_output` is the whitespace-token count
of the result. -/
theorem text_field_success (s S : String) (t : ℚ)
    (hp : from_str_json (rustTrim s) = .ok (Json.obj [("text", Json.str S)])) :
    (mainRun s t).exitCode = 0 ∧
    ∃ d, (mainRun s t).output = StdoutDoc.success d ∧
      d.result = "Processed: " ++ S ∧
      d.mentat_meta.tokens_input = some (splitWhitespaceCount S) ∧
      d.mentat_meta.tokens_output =
        some (splitWhitespaceCount ("Processed: " ++ S)) := by
  have hne : rustTrim s ≠ "" := by
    intro h
    rw [h, from_str_json_empty] at hp
    exact Except.noConfusion hp
  have hd : from_str_InputData (rustTrim s) = .ok { text := some S } := by
    unfold from_str_InputData
    rw [hp]
    rfl
  have hm : mainRun s t = runParsed (.ok { text := some S }) t := by
    unfold mainRun
    rw [if_neg hne, hd]
  refine ⟨by rw [hm]; rfl, process_request { text := some S } t,
    by rw [hm]; rfl, rfl, ?_, ?_⟩
  · show (if S = "" then some 0 else some (splitWhitespaceCount S)) =
      some (splitWhitespaceCount S)
    by_cases hS : S = ""
    · subst hS; rfl
    · rw [if_neg hS]
  · show (if ("Processed: " ++ S) = "" then some 0
      else some (splitWhitespaceCount ("Processed: " ++ S))) =
      some (splitWhitespaceCount ("Processed: " ++ S))
    rw [if_neg (processed_ne_empty S)]

/-- Witness for C1 at the documented example input. -/
theorem text_field_success_witness :
    from_str_json (rustTrim "\x7b\"text\": \"hello world\"\x7d") =
      .ok (Json.obj [("text", Json.str "hello world")]) ∧
    ((mainRun "\x7b\"text\": \"hello world\"\x7d" 0).exitCode = 0 ∧
     ∃ d, (mainRun "\x7b\"text\": \"hello world\"\x7d" 0).output =
        StdoutDoc.success d ∧
       d.result = "Processed: " ++ "hello world" ∧
       d.mentat_meta.tokens_input =
         some (splitWhitespaceCount "hello world") ∧
       d.mentat_meta.tokens_output =
         some (splitWhitespaceCount ("Processed: " ++ "hello world"))) :=
  ⟨rfl, text_field_success "\x7b\"text\": \"hello world\"\x7d" "hello world" 0 rfl⟩

/-- C5: on the input that is a bare empty JSON object, the program succeeds
with `result` equal to `Processed: `, `tokens_input` 0 and `tokens_output`
1. -/
theorem empty_object_behavior (t : ℚ) :
    (mainRun "\x7b\x7d" t).exitCode = 0 ∧
    ∃ d, (mainRun "\x7b\x7d" t).output = StdoutDoc.success d ∧
      d.result = "Processed: " ∧
      d.mentat_meta.tokens_input = some 0 ∧
      d.mentat_meta.tokens_output = some 1 := by
  have hm : mainRun "\x7b\x7d" t = runParsed (.ok { text := none }) t := by
    unfold mainRun
    rw [if_neg (by decide)]
    rfl
  exact ⟨by rw [hm]; rfl, process_request { text := none } t,
    by rw [hm]; rfl, rfl, rfl, rfl⟩

/-- Witness for C5, the theorem taken at duration zero. -/
theorem empty_object_behavior_witness :
    (mainRun "\x7b\x7d" 0).exitCode = 0 ∧
    ∃ d, (mainRun "\x7b\x7d" 0).output = StdoutDoc.success d ∧
      d.result = "Processed: " ∧
      d.mentat_meta.tokens_input = some 0 ∧
      d.mentat_meta.tokens_output = some 1 :=
  empty_object_behavior 0

/-- C10: on the input whose `text` field is present but null, decoding
succeeds and the run is identical to the run on the bare empty object:
exit code 0, `result` equal to `Processed: `, `tokens_input` 0 and
`tokens_output` 1. -/
theorem null_text_behavior (t : ℚ) :
    mainRun "\x7b\"text\": null\x7d" t = mainRun "\x7b\x7d" t ∧
    from_str_InputData (rustTrim "\x7b\"text\": null\x7d") =
      .ok { text := none } ∧
    (mainRun "\x7b\"text\": null\x7d" t).exitCode = 0 ∧
    ∃ d, (mainRun "\x7b\"text\": null\x7d" t).output = StdoutDoc.success d ∧
      d.result = "Processed: " ∧
      d.mentat_meta.tokens_input = some 0 ∧
      d.mentat_meta.tokens_output = some 1 := by
  have hm : mainRun "\x7b\"text\": null\x7d" t =
      runParsed (.ok { text := none }) t := by
    unfold mainRun
    rw [if_neg (by decide)]
    rfl
  have hm2 : mainRun "\x7b\x7d" t = runParsed (.ok { text := none }) t := by
    unfold mainRun
    rw [if_neg (by decide)]
    rfl
  exact ⟨hm.trans hm2.symm, rfl, by rw [hm]; rfl,
    process_request { text := none } t, by rw [hm]; rfl, rfl, rfl, rfl⟩

/-- Witness for C10, the theorem taken at duration zero. -/
theorem null_text_behavior_witness :
    mainRun "\x7b\"text\": null\x7d" 0 = mainRun "\x7b\x7d" 0 ∧
    from_str_InputData (rustTrim "\x7b\"text\": null\x7d") =
      .ok { text := none } :=
  ⟨(null_text_behavior 0).1, (null_text_behavior 0).2.1⟩

/-- A conditional whose branches are both `some` is populated. -/
theorem isSome_ite_some {α : Type} (c : Prop) [Decidable c] (x y : α) :
    (if c then some x else some y).isSome = true := by
  by_cases h : c <;> simp [h]

/-- The shape the spec requires of every emitted MetaRecord: all four
fields populated on the success document, the counters and timing null on
the error document, and the model always the build-time identifier. -/
def metaOk : StdoutDoc → Prop
  | .success d => d.mentat_meta.tokens_input.isSome = true ∧
      d.mentat_meta.tokens_output.isSome = true ∧
      d.mentat_meta.seconds.isSome = true ∧
      d.mentat_meta.model = AGENT_ID
  | .failure e => e.mentat_meta.tokens_input = none ∧
      e.mentat_meta.tokens_output = none ∧
      e.mentat_meta.seconds = none ∧
      e.mentat_meta.model = AGENT_ID

/-- C4: every MetaRecord the program emits satisfies the population
invariant: on the success path all of `tokens_input`, `tokens_output`,
`seconds` and `model` are populated, on every error path the counters and
timing are null with only `model` set, and `model` is always the fixed
build-time identifier. -/
theorem meta_record_invariant (s : String) (t : ℚ) :
    metaOk (mainRun s t).output := by
  unfold mainRun
  by_cases h : rustTrim s = ""
  · rw [if_pos h]
    exact ⟨rfl, rfl, rfl, rfl⟩
  · rw [if_neg h]
    cases hd : from_str_InputData (rustTrim s) with
    | ok data =>
      unfold runParsed
      refine ⟨?_, ?_, rfl, rfl⟩
      · show (if data.text.getD "" = "" then some 0
          else some (splitWhitespaceCount (data.text.getD ""))).isSome = true
        exact isSome_ite_some _ _ _
      · show (if ("Processed: " ++ data.text.getD "") = "" then some 0
          else some (splitWhitespaceCount
            ("Processed: " ++ data.text.getD ""))).isSome = true
        exact isSome_ite_some _ _ _
    | error msg =>
      exact ⟨rfl, rfl, rfl, rfl⟩

/-- Witness for C4 on a success run and an error run. -/
theorem meta_record_invariant_witness :
    metaOk (mainRun "\x7b\x7d" 0).output ∧ metaOk (mainRun "" 0).output :=
  ⟨meta_record_invariant "\x7b\x7d" 0, meta_record_invariant "" 0⟩

/-- C6: fields other than `text` are not rejected and do not influence the
outcome: decoding an object is decoding it with the extra fields removed,
the run after the parse is the same, and whenever the object stripped of
extra fields decodes, the full object decodes to the same value. -/
theorem unknown_fields_ignored (fs : List (String × Json)) (t : ℚ) :
    decodeInputData (Json.obj fs) =
      decodeInputData (Json.obj (fs.filter (fun p => p.1 == "text"))) ∧
    runParsed (decodeInputData (Json.obj fs)) t =
      runParsed (decodeInputData
        (Json.obj (fs.filter (fun p => p.1 == "text")))) t ∧
    ∀ d, decodeInputData (Json.obj (fs.filter (fun p => p.1 == "text"))) =
        .ok d → decodeInputData (Json.obj fs) = .ok d := by
  have h : decodeInputData (Json.obj fs) =
      decodeInputData (Json.obj (fs.filter (fun p => p.1 == "text"))) := by
    simp only [decodeInputData]
    rw [readTextField_filter]
  exact ⟨h, by rw [h], fun d hd => h.trans hd⟩

/-- Witness for C6 at an object with one extra field. -/
theorem unknown_fields_ignored_witness :
    decodeInputData
        (Json.obj [("text", Json.str "a"), ("extra", Json.num 1)]) =
      decodeInputData (Json.obj
        ([("text", Json.str "a"), ("extra", Json.num 1)].filter
          (fun p => p.1 == "text"))) ∧
    decodeInputData
        (Json.obj [("text", Json.str "a"), ("extra", Json.num 1)]) =
      .ok { text := some "a" } :=
  ⟨(unknown_fields_ignored [("text", Json.str "a"), ("extra", Json.num 1)] 0).1,
   (unknown_fields_ignored
      [("text", Json.str "a"), ("extra", Json.num 1)] 0).2.2
     { text := some "a" } rfl⟩

/-- C7: the whitespace-delimited token count used for `tokens_input` is
invariant under surrounding whitespace: for every string `S` and every
whitespace-only string `W`, the count of `W ++ S ++ W` is the count of
`S`. -/
theorem token_count_ws_invariant (S W : String)
    (hW : ∀ c ∈ W.data, rustIsWhitespace c = true) :
    splitWhitespaceCount (W ++ S ++ W) = splitWhitespaceCount S := by
  unfold splitWhitespaceCount
  rw [String.data_append, String.data_append]
  rw [countTokensAux_ws_suffix (W.data ++ S.data) W.data hW false]
  exact countTokensAux_ws_prefix W.data S.data hW

/-- Witness for C7 at a space-padded two-token string. -/
theorem token_count_ws_invariant_witness :
    (∀ c ∈ (" " : String).data, rustIsWhitespace c = true) ∧
    splitWhitespaceCount (" " ++ "a b" ++ " ") = splitWhitespaceCount "a b" :=
  ⟨by decide, token_count_ws_invariant "a b" " " (by decide)⟩

/-- Decoding inverts encoding on optional counters. -/
theorem decodeOptNat_encodeOptNat (x : Option Nat) :
    decodeOptNat (encodeOptNat x) = .ok x := by
  cases x with
  | none => rfl
  | some n =>
    show decodeOptNat (.num (n : ℚ)) = .ok (some n)
    simp only [decodeOptNat]
    rw [if_pos ⟨Rat.den_natCast n, by simp⟩]
    simp

/-- Decoding inverts encoding on the optional seconds field. -/
theorem decodeOptQ_encodeOptQ (x : Option ℚ) :
    decodeOptQ (encodeOptQ x) = .ok x := by
  cases x <;> rfl

/-- Decoding inverts encoding on MetaRecords. -/
theorem decodeMeta_encodeMeta (m : MentatMeta) :
    decodeMeta (encodeMeta m) = .ok m := by
  obtain ⟨ti, tko, se, mo⟩ := m
  simp [decodeMeta, encodeMeta, getField, lookupField,
    decodeOptNat_encodeOptNat, decodeOptQ_encodeOptQ, decodeStr]

/-- C8: encoding a SuccessDocument and decoding the encoding yields a
document with the same `result` and the same `model`. -/
theorem success_doc_roundtrip (d : OutputData) :
    ∃ d2, decodeOutputData (encodeOutputData d) = .ok d2 ∧
      d2.result = d.result ∧ d2.mentat_meta.model = d.mentat_meta.model := by
  refine ⟨d, ?_, rfl, rfl⟩
  obtain ⟨r, m⟩ := d
  simp [decodeOutputData, encodeOutputData, getField, lookupField,
    decodeStr, decodeMeta_encodeMeta]

/-- Witness for C8 at a document the program produces. -/
theorem success_doc_roundtrip_witness :
    ∃ d2, decodeOutputData
        (encodeOutputData (process_request { text := some "hi" } 0)) =
      .ok d2 ∧
      d2.result = (process_request { text := some "hi" } 0).result ∧
      d2.mentat_meta.model =
        (process_request { text := some "hi" } 0).mentat_meta.model :=
  success_doc_roundtrip (process_request { text := some "hi" } 0)

/-- C9 counterexample: on empty input the program writes nothing at all to
standard error before exiting 1, so the empty-input path carries no
diagnostic line, against what the claim states. -/
theorem empty_input_stderr_counterexample :
    (mainRun "" 0).stderrLines = [] ∧ (mainRun "" 0).exitCode = 1 :=
  ⟨rfl, rfl⟩

/-- C9 amended: the decode-failure path writes the diagnostic
`JSON parse error: ` plus the decoder message to standard error next to the
ErrorDocument on standard output, and the serialization-failure branch of
the source would do likewise but is unreachable for these documents; the
empty-input path writes only the ErrorDocument and exits 1 with no
diagnostic on standard error. -/
theorem stderr_diag_amended (s : String) (t : ℚ) :
    (rustTrim s = "" →
      (mainRun s t).stderrLines = [] ∧ (mainRun s t).exitCode = 1) ∧
    (∀ msg, rustTrim s ≠ "" →
      from_str_InputData (rustTrim s) = .error msg →
      (mainRun s t).stderrLines = ["JSON parse error: " ++ msg] ∧
      (mainRun s t).exitCode = 1) := by
  constructor
  · intro h
    unfold mainRun
    rw [if_pos h]
    exact ⟨rfl, rfl⟩
  · intro msg hne hdec
    unfold mainRun
    rw [if_neg hne, hdec]
    exact ⟨rfl, rfl⟩

/-- Witness for the amended C9 on the two reachable error paths. -/
theorem stderr_diag_amended_witness :
    (rustTrim "" = "" ∧ (mainRun "" 0).stderrLines = []) ∧
    (rustTrim "not json" ≠ "" ∧
     from_str_InputData (rustTrim "not json") = .error "expected ident" ∧
     (mainRun "not json" 0).stderrLines =
       ["JSON parse error: " ++ "expected ident"]) :=
  ⟨⟨rfl, ((stderr_diag_amended "" 0).1 rfl).1⟩,
   ⟨by decide, rfl,
    ((stderr_diag_amended "not json" 0).2 "expected ident" (by decide) rfl).1⟩⟩
